import Mathlib

set_option maxHeartbeats 1000000

/-!
Verification of the infinite-craft exploration engine against its design
specification.  The definitions below are a shallow embedding of the Go
sources `collectData.go` and `json.go`: the SQLite tables become lists of
rows, the process-wide `localItemsCache` map becomes an association list,
the HTTP combine client becomes a function over a list of received
responses, and the exploration loop becomes a fuel-indexed recursive
function driven by an oracle of per-iteration inputs (the drawn pair, a
possible store error on the existence check, and the API response).
-/

/-- `ApiResponse` from collectData.go: the decoded JSON body of a
successful combine call (`result`, `emoji`, `isNew`). -/
structure ApiResponse where
  result : String
  emoji : String
  isNew : Bool
deriving DecidableEq

/-- One row of the `combinations` table (the auto-increment id column is
omitted; it never influences behaviour). -/
structure Combo where
  firstItem : String
  secondItem : String
  resultItem : String
deriving DecidableEq

/-- The durable store: the `items` table (rows `(name, emoji, isNew)`,
keyed by `name`) and the `combinations` table. -/
structure Store where
  items : List (String × String × Bool)
  combos : List Combo
deriving DecidableEq

/-- The four seed rows written by `insertInitialItems` (all with
`isNew = false`). -/
def initialItems : List (String × String × Bool) :=
  [("Water", "💧", false), ("Fire", "🔥", false),
   ("Wind", "🌬️", false), ("Earth", "🌍", false)]

/-- The store produced by `createTables` followed by
`insertInitialItems` on a fresh database file. -/
def seedStore : Store :=
  { items := initialItems, combos := [] }

/-- A store with no tables or rows at all. -/
def emptyStore : Store :=
  { items := [], combos := [] }

/-- The SQL upsert of `insertOrUpdateItem`:
`INSERT INTO items ... ON CONFLICT(name) DO UPDATE SET emoji=excluded.emoji,
isNew=excluded.isNew`.  If a row with the given name exists it is updated
in place (only `emoji`/`isNew` change), otherwise a new row is appended. -/
def upsertItems (name emoji : String) (isNew : Bool)
    (items : List (String × String × Bool)) : List (String × String × Bool) :=
  if items.any (fun it => it.1 == name) then
    items.map (fun it => if it.1 == name then (name, emoji, isNew) else it)
  else
    items ++ [(name, emoji, isNew)]

/-- The Go map assignment `localItemsCache[name] = emoji`: insert the key
or overwrite its value. -/
def cacheUpsert (name emoji : String)
    (cache : List (String × String)) : List (String × String) :=
  if cache.any (fun it => it.1 == name) then
    cache.map (fun it => if it.1 == name then (name, emoji) else it)
  else
    cache ++ [(name, emoji)]

/-- `combinationExists` from collectData.go:
`SELECT COUNT(*) FROM combinations WHERE firstItem = ? AND secondItem = ?`
compared against zero. -/
def combinationExists (first second : String) (st : Store) : Bool :=
  st.combos.any (fun c => c.firstItem == first && c.secondItem == second)

/-- `insertCombination` from collectData.go: a plain
`INSERT INTO combinations (firstItem, secondItem, resultItem)`. -/
def insertCombination (firstItem secondItem resultItem : String)
    (st : Store) : Store :=
  { st with combos := st.combos ++
      [{ firstItem := firstItem, secondItem := secondItem,
         resultItem := resultItem }] }

/-- Referential integrity of the `resultItem` column: every combination
row's result references an existing item row. -/
def resultRefsOk (st : Store) : Prop :=
  ∀ c ∈ st.combos, c.resultItem ∈ st.items.map Prod.fst

instance (st : Store) : Decidable (resultRefsOk st) := by
  unfold resultRefsOk; infer_instance

/- ### Helper lemmas about the upsert -/

lemma upsertItems_map_self (name emoji : String) (isNew : Bool)
    (items : List (String × String × Bool))
    (h : items.any (fun it => it.1 == name) = false) :
    items.map (fun it => if it.1 == name then (name, emoji, isNew) else it)
      = items := by
  rw [List.any_eq_false] at h
  have : ∀ it ∈ items,
      (if it.1 == name then (name, emoji, isNew) else it) = it := by
    intro it hit
    have := h it hit
    simp only [Bool.not_eq_true] at this
    simp [this]
  calc items.map (fun it => if it.1 == name then (name, emoji, isNew) else it)
      = items.map id := List.map_congr_left this
    _ = items := List.map_id items

lemma upsertItems_idem (name emoji : String) (isNew : Bool)
    (items : List (String × String × Bool)) :
    upsertItems name emoji isNew (upsertItems name emoji isNew items)
      = upsertItems name emoji isNew items := by
  unfold upsertItems
  by_cases h : items.any (fun it => it.1 == name) = true
  · simp only [h, if_true]
    have hmap : (items.map
        (fun it => if it.1 == name then (name, emoji, isNew) else it)).any
        (fun it => it.1 == name) = true := by
      rw [List.any_eq_true] at h ⊢
      obtain ⟨it, hit, hname⟩ := h
      refine ⟨if it.1 == name then (name, emoji, isNew) else it,
        List.mem_map_of_mem _ hit, ?_⟩
      simp [hname]
    simp only [hmap, if_true, List.map_map]
    apply List.map_congr_left
    intro it _
    by_cases hn : it.1 == name
    · simp [hn, Function.comp]
    · simp [hn, Function.comp]
  · have h' : items.any (fun it => it.1 == name) = false := by
      simp only [Bool.not_eq_true] at h; exact h
    simp only [h', Bool.false_eq_true, if_false]
    have happ : (items ++ [(name, emoji, isNew)]).any
        (fun it => it.1 == name) = true := by
      rw [List.any_eq_true]
      exact ⟨(name, emoji, isNew), List.mem_append_right _ (by simp), by simp⟩
    simp only [happ, if_true, List.map_append]
    rw [upsertItems_map_self name emoji isNew items h']
    simp

lemma upsertItems_keys (name emoji : String) (isNew : Bool)
    (items : List (String × String × Bool)) :
    (upsertItems name emoji isNew items).map Prod.fst =
      if items.any (fun it => it.1 == name) then items.map Prod.fst
      else items.map Prod.fst ++ [name] := by
  unfold upsertItems
  by_cases h : items.any (fun it => it.1 == name) = true
  · simp only [h, if_true, List.map_map]
    apply List.map_congr_left
    intro it _
    by_cases hn : it.1 == name
    · have : it.1 = name := by simpa using hn
      simp [hn, Function.comp, this]
    · simp [hn, Function.comp]
  · simp only [h, if_false]
    simp

lemma upsertItems_mem_key (name emoji : String) (isNew : Bool)
    (items : List (String × String × Bool)) :
    name ∈ (upsertItems name emoji isNew items).map Prod.fst := by
  rw [upsertItems_keys]
  by_cases h : items.any (fun it => it.1 == name) = true
  · simp only [h, if_true]
    rw [List.any_eq_true] at h
    obtain ⟨it, hit, hname⟩ := h
    have : it.1 = name := by simpa using hname
    exact this ▸ List.mem_map_of_mem Prod.fst hit
  · simp only [h, if_false]
    simp

lemma upsertItems_keys_mono (name emoji : String) (isNew : Bool)
    (items : List (String × String × Bool)) (x : String)
    (hx : x ∈ items.map Prod.fst) :
    x ∈ (upsertItems name emoji isNew items).map Prod.fst := by
  rw [upsertItems_keys]
  by_cases h : items.any (fun it => it.1 == name) = true
  · simp only [h, if_true]; exact hx
  · simp only [h, if_false]; exact List.mem_append_left _ hx

lemma upsertItems_frame (name emoji : String) (isNew : Bool)
    (items : List (String × String × Bool)) :
    ∀ it ∈ upsertItems name emoji isNew items, it.1 ≠ name → it ∈ items := by
  intro it hit hne
  unfold upsertItems at hit
  by_cases h : items.any (fun it => it.1 == name) = true
  · simp only [h, if_true] at hit
    rw [List.mem_map] at hit
    obtain ⟨a, ha, heq⟩ := hit
    by_cases hn : a.1 == name
    · exfalso; apply hne; rw [← heq]; simp [hn]
    · rw [← heq]; simp only [hn, Bool.false_eq_true, if_false]; exact ha
  · simp only [h, if_false] at hit
    rcases List.mem_append.1 hit with h1 | h1
    · exact h1
    · exfalso; apply hne; simp at h1; simp [h1]

lemma cacheUpsert_idem (name emoji : String)
    (cache : List (String × String)) :
    cacheUpsert name emoji (cacheUpsert name emoji cache)
      = cacheUpsert name emoji cache := by
  unfold cacheUpsert
  by_cases h : cache.any (fun it => it.1 == name) = true
  · simp only [h, if_true]
    have hmap : (cache.map
        (fun it => if it.1 == name then (name, emoji) else it)).any
        (fun it => it.1 == name) = true := by
      rw [List.any_eq_true] at h ⊢
      obtain ⟨it, hit, hname⟩ := h
      refine ⟨if it.1 == name then (name, emoji) else it,
        List.mem_map_of_mem _ hit, ?_⟩
      simp [hname]
    simp only [hmap, if_true, List.map_map]
    apply List.map_congr_left
    intro it _
    by_cases hn : it.1 == name
    · simp [hn, Function.comp]
    · simp [hn, Function.comp]
  · have h' : cache.any (fun it => it.1 == name) = false := by
      simp only [Bool.not_eq_true] at h; exact h
    simp only [h', Bool.false_eq_true, if_false]
    have happ : (cache ++ [(name, emoji)]).any
        (fun it => it.1 == name) = true := by
      rw [List.any_eq_true]
      exact ⟨(name, emoji), List.mem_append_right _ (by simp), by simp⟩
    simp only [happ, if_true, List.map_append]
    have hfix : cache.map
        (fun it => if it.1 == name then (name, emoji) else it) = cache := by
      rw [List.any_eq_false] at h'
      have : ∀ it ∈ cache,
          (if it.1 == name then (name, emoji) else it) = it := by
        intro it hit
        have := h' it hit
        simp only [Bool.not_eq_true] at this
        simp [this]
      calc cache.map (fun it => if it.1 == name then (name, emoji) else it)
          = cache.map id := List.map_congr_left this
        _ = cache := List.map_id cache
    rw [hfix]
    simp

/- ### Engine state and the combine path -/

/-- A log line emitted by the engine.  `errSampling` is
`logrus.Error("Error getting random items: ...")`, `errExists` is
`logrus.Error("Error checking if combination exists: ...")`, `fatalApi`
is the `logrus.Fatal` inside `combineElements`, and `finished` is the
`logrus.Info("Finished creating combinations. Total created: ...,
Total attempts: ...")` line after the loop. -/
inductive LogLine
  | errSampling
  | errExists
  | fatalApi
  | finished (created attempts : Nat)
deriving DecidableEq

/-- `true` exactly on the final-counts log line. -/
def isFinishedLog : LogLine → Bool
  | LogLine.finished _ _ => true
  | _ => false

/-- How a run of `exploreCombinations` ends: bounds reached (normal loop
exit), an early `return` after a logged error (process survives), or a
`logrus.Fatal`/panic that kills the process. -/
inductive Outcome
  | exhausted
  | aborted
  | fatal
deriving DecidableEq

/-- The mutable state threaded through the engine: the durable store,
the `localItemsCache` map (as an association list), the two loop
counters, a count of outbound combine calls (for frame properties), and
the emitted log (most recent first). -/
structure EState where
  store : Store
  cache : List (String × String)
  created : Nat
  attempts : Nat
  apiCalls : Nat
  log : List LogLine
deriving DecidableEq

/-- `insertOrUpdateItem` from collectData.go: updates the local cache,
then performs the SQL upsert on the `items` table. -/
def insertOrUpdateItem (name emoji : String) (isNew : Bool)
    (st : EState) : EState :=
  { st with
    cache := cacheUpsert name emoji st.cache,
    store := { st.store with
      items := upsertItems name emoji isNew st.store.items } }

/-- `combineElements` from collectData.go: calls the API (counted in
`apiCalls`), then upserts the result entry, then inserts the
combination row — in that order. -/
def combineElements (first second : String) (resp : ApiResponse)
    (st : EState) : EState :=
  let st0 := { st with apiCalls := st.apiCalls + 1 }
  let st1 := insertOrUpdateItem resp.result resp.emoji resp.isNew st0
  { st1 with store := insertCombination first second resp.result st1.store }

/-- Claim C6: the entry upsert is idempotent and identity-preserving:
applying `insertOrUpdateItem` twice with identical arguments yields the
same state as applying it once; the key column of the `items` table is
unchanged when the name already exists (and otherwise only gains the new
name at the end); and every row whose name differs from the upserted name
is left untouched. -/
theorem upsert_idempotent_and_key_preserving (name emoji : String)
    (isNew : Bool) (st : EState) :
    insertOrUpdateItem name emoji isNew (insertOrUpdateItem name emoji isNew st)
      = insertOrUpdateItem name emoji isNew st ∧
    ((insertOrUpdateItem name emoji isNew st).store.items.map Prod.fst =
      if st.store.items.any (fun it => it.1 == name) then
        st.store.items.map Prod.fst
      else st.store.items.map Prod.fst ++ [name]) ∧
    (∀ it ∈ (insertOrUpdateItem name emoji isNew st).store.items,
      it.1 ≠ name → it ∈ st.store.items) := by
  refine ⟨?_, ?_, ?_⟩
  · simp only [insertOrUpdateItem]
    rw [upsertItems_idem, cacheUpsert_idem]
  · simp only [insertOrUpdateItem]
    exact upsertItems_keys name emoji isNew st.store.items
  · simp only [insertOrUpdateItem]
    exact upsertItems_frame name emoji isNew st.store.items

/-- Claim C6 witness: the theorem evaluated at a concrete state whose
store already holds a row named `"Water"`. -/
theorem upsert_idempotent_witness :
    insertOrUpdateItem "Water" "💧" true
        (insertOrUpdateItem "Water" "💧" true
          { store := seedStore, cache := [("Water", "💧")], created := 0,
            attempts := 0, apiCalls := 0, log := [] })
      = insertOrUpdateItem "Water" "💧" true
          { store := seedStore, cache := [("Water", "💧")], created := 0,
            attempts := 0, apiCalls := 0, log := [] } ∧
    ((insertOrUpdateItem "Water" "💧" true
          { store := seedStore, cache := [("Water", "💧")], created := 0,
            attempts := 0, apiCalls := 0, log := [] }).store.items.map Prod.fst =
      if seedStore.items.any (fun it => it.1 == "Water") then
        seedStore.items.map Prod.fst
      else seedStore.items.map Prod.fst ++ ["Water"]) ∧
    (∀ it ∈ (insertOrUpdateItem "Water" "💧" true
          { store := seedStore, cache := [("Water", "💧")], created := 0,
            attempts := 0, apiCalls := 0, log := [] }).store.items,
      it.1 ≠ "Water" → it ∈ seedStore.items) :=
  upsert_idempotent_and_key_preserving "Water" "💧" true
    { store := seedStore, cache := [("Water", "💧")], created := 0,
      attempts := 0, apiCalls := 0, log := [] }

/-- Claim C1: `combineElements` writes the result entry (upsert) strictly
before inserting the combination row: if result-referential integrity
holds before the call, it holds at the intermediate state right after the
upsert and still holds after the combination insert; and the seed store
(entries with no combination pointing at them) satisfies the invariant
with an empty combination table. -/
theorem entry_written_before_combination (first second : String)
    (resp : ApiResponse) (st : EState) (h : resultRefsOk st.store) :
    resultRefsOk (insertOrUpdateItem resp.result resp.emoji resp.isNew
        { st with apiCalls := st.apiCalls + 1 }).store ∧
    resultRefsOk (combineElements first second resp st).store ∧
    resultRefsOk seedStore ∧ seedStore.combos = [] := by
  have hup : resultRefsOk (insertOrUpdateItem resp.result resp.emoji
      resp.isNew { st with apiCalls := st.apiCalls + 1 }).store := by
    intro c hc
    simp only [insertOrUpdateItem] at hc ⊢
    exact upsertItems_keys_mono resp.result resp.emoji resp.isNew
      st.store.items c.resultItem (h c hc)
  refine ⟨hup, ?_, by decide, rfl⟩
  intro c hc
  simp only [combineElements, insertCombination, insertOrUpdateItem] at hc ⊢
  rcases List.mem_append.1 hc with h1 | h1
  · exact hup c h1
  · simp only [List.mem_singleton] at h1
    subst h1
    exact upsertItems_mem_key resp.result resp.emoji resp.isNew st.store.items

/-- The engine state right after startup on a fresh database: seed store,
hydrated cache, zero counters, empty log. -/
def startState : EState :=
  { store := seedStore,
    cache := [("Water", "💧"), ("Fire", "🔥"),
              ("Wind", "🌬️"), ("Earth", "🌍")],
    created := 0, attempts := 0, apiCalls := 0, log := [] }

/-- The mock successful response of Scenario A:
`(Water, Fire) -> Steam`. -/
def steamResp : ApiResponse :=
  { result := "Steam", emoji := "💨", isNew := true }

/-- Claim C1 witness: the theorem evaluated on the seed store and a
concrete successful response. -/
theorem entry_written_before_combination_witness :
    resultRefsOk (insertOrUpdateItem "Steam" "💨" true
        { startState with apiCalls := startState.apiCalls + 1 }).store ∧
    resultRefsOk (combineElements "Water" "Fire" steamResp startState).store ∧
    resultRefsOk seedStore ∧ seedStore.combos = [] :=
  entry_written_before_combination "Water" "Fire" steamResp startState
    (by decide)

/- ### The combine client (`callApi`) -/

/-- One HTTP response received by `callApi`: the status code, the raw
`Retry-After` header (`resp.Header.Get` yields `""` when the header is
absent), and the decoded body of a non-error response (`none` models a
body that fails `json.Unmarshal`). -/
structure HttpResp where
  status : Nat
  retryAfterHeader : String
  body : Option ApiResponse
deriving DecidableEq

/-- The digits of a decimal numeral, or `none` if the character list is
empty or contains a non-digit. -/
def digitsVal (cs : List Char) : Option Nat :=
  if cs ≠ [] ∧ cs.all (fun c => c.isDigit) then
    some (cs.foldl (fun a c => a * 10 + (c.toNat - 48)) 0)
  else none

/-- Go's `strconv.Atoi` on a 64-bit platform: an optional sign followed
by decimal digits, rejecting anything else and values outside the range
of a 64-bit signed integer. -/
def goAtoi (s : String) : Option Int :=
  match s.data with
  | '+' :: rest => (digitsVal rest).bind
      (fun n => if n ≤ 9223372036854775807 then some ((n : Int)) else none)
  | '-' :: rest => (digitsVal rest).bind
      (fun n => if n ≤ 9223372036854775808 then some (-(n : Int)) else none)
  | cs => (digitsVal cs).bind
      (fun n => if n ≤ 9223372036854775807 then some ((n : Int)) else none)

/-- What `callApi` ultimately does for one pair: return a decoded
response, return a body/decode error, panic on a non-429 status ≥ 400, or
never come back because the stream of responses ran out while every
received response was a 429. -/
inductive ApiOutcome
  | ok (resp : ApiResponse)
  | err
  | panicStatus (code : Nat)
  | noResponse
deriving DecidableEq

/-- `callApi` from collectData.go, evaluated against the list of HTTP
responses the upstream will produce for this pair (one per issued
request).  Returns the total number of seconds passed to `time.Sleep`
across all 429 retries, together with the final outcome.  On 429 it reads
`Retry-After` with `strconv.Atoi`, defaults to 60 on a parse error,
sleeps `retryAfter + 1` seconds and re-issues the identical request.  On
any other status ≥ 400 it panics; otherwise it decodes the body. -/
def callApiGo (first second : String) : List HttpResp → Int × ApiOutcome
  | [] => (0, ApiOutcome.noResponse)
  | r :: rs =>
    if r.status = 429 then
      let retryAfter : Int :=
        match goAtoi r.retryAfterHeader with
        | some v => v
        | none => 60
      let tail := callApiGo first second rs
      (retryAfter + 1 + tail.1, tail.2)
    else if 400 ≤ r.status then (0, ApiOutcome.panicStatus r.status)
    else
      match r.body with
      | some resp => (0, ApiOutcome.ok resp)
      | none => (0, ApiOutcome.err)

/-- The call-stack depth `callApi` reaches on a given response list: each
429 response triggers `return callApi(first, second)`, a recursive
re-invocation that Go does not tail-call-eliminate, so it adds one stack
frame on top of the retry's own depth. -/
def callApiDepth : List HttpResp → Nat
  | [] => 1
  | r :: rs => if r.status = 429 then 1 + callApiDepth rs else 1

/-- Claim C4: for every 429-answered request, the client parses
`Retry-After` as an integer (defaulting to 60 when absent or unparsable,
since `Header.Get` returns `""` for an absent header and `Atoi` rejects
it), sleeps exactly `Retry-After + 1` seconds per 429, re-issues the
identical request for the same ordered pair, and returns only the
eventual non-429 outcome: over any run of 429 responses `pre` followed by
a non-429 response `r`, the total sleep is the sum of the per-response
`Retry-After + 1` values and the outcome is exactly that of the first
non-429 response. -/
theorem rate_limit_retry_behavior (first second : String)
    (pre : List HttpResp) (r : HttpResp) (rs : List HttpResp)
    (hpre : ∀ p ∈ pre, p.status = 429) (hr : r.status ≠ 429) :
    callApiGo first second (pre ++ r :: rs) =
      ((pre.map (fun p => ((goAtoi p.retryAfterHeader).getD 60) + 1)).sum,
        (callApiGo first second (r :: rs)).2) ∧
    goAtoi "" = none := by
  refine ⟨?_, by decide⟩
  induction pre with
  | nil =>
    simp only [List.nil_append, List.map_nil, List.sum_nil]
    rw [callApiGo]
    simp only [hr, if_false]
    by_cases h4 : 400 ≤ r.status
    · simp [h4, callApiGo, hr]
    · cases hb : r.body with
      | some resp => simp [h4, hb, callApiGo, hr]
      | none => simp [h4, hb, callApiGo, hr]
  | cons p ps ih =>
    have hp : p.status = 429 := hpre p (List.mem_cons_self p ps)
    have hps : ∀ q ∈ ps, q.status = 429 := fun q hq =>
      hpre q (List.mem_cons_of_mem p hq)
    have ih' := ih hps
    simp only [List.cons_append]
    rw [callApiGo]
    simp only [hp, if_true, ih']
    simp only [List.map_cons, List.sum_cons]
    have hma : (match goAtoi p.retryAfterHeader with
        | some v => v
        | none => (60 : Int)) = (goAtoi p.retryAfterHeader).getD 60 := by
      cases goAtoi p.retryAfterHeader <;> rfl
    rw [hma]

/-- A throttled response carrying `Retry-After: 1`. -/
def resp429one : HttpResp :=
  { status := 429, retryAfterHeader := "1", body := none }

/-- A throttled response with the `Retry-After` header absent. -/
def resp429absent : HttpResp :=
  { status := 429, retryAfterHeader := "", body := none }

/-- A successful response producing Steam. -/
def respSteamOk : HttpResp :=
  { status := 200, retryAfterHeader := "", body := some steamResp }

/-- Claim C4 witness: two throttled responses (one with
`Retry-After: 1`, one with the header absent) followed by a success;
the client sleeps 2 + 61 seconds and returns the success. -/
theorem rate_limit_retry_behavior_witness :
    callApiGo "Water" "Fire" ([resp429one, resp429absent] ++ respSteamOk :: []) =
      (([resp429one, resp429absent].map
          (fun p => ((goAtoi p.retryAfterHeader).getD 60) + 1)).sum,
        (callApiGo "Water" "Fire" (respSteamOk :: [])).2) ∧
    goAtoi "" = none :=
  rate_limit_retry_behavior "Water" "Fire" [resp429one, resp429absent]
    respSteamOk [] (by decide) (by decide)

/-- Claim C5 counterexample: the rate-limit retry is NOT an iterative
loop with bounded stack depth — `callApi` re-invokes itself on every 429
(the source comment reads "Recursively retry the request"), so the stack
depth reached does depend on the number of 429 responses: one leading
429 already deepens the stack from 1 to 2, and two deepen it to 3. -/
theorem retry_not_iterative_counterexample :
    callApiDepth [respSteamOk] = 1 ∧
    callApiDepth [resp429one, respSteamOk] = 2 ∧
    callApiDepth [resp429one, resp429one, respSteamOk] = 3 ∧
    callApiDepth [resp429one, respSteamOk] ≠ callApiDepth [respSteamOk] := by
  decide

/-- Claim C5 amended: the retry is a recursive re-invocation whose stack
depth grows linearly — `k` consecutive 429 responses put `k` retry frames
on top of the depth reached on the rest of the response sequence (so
sustained throttling grows the call stack without bound), while the
client does terminate for every finite response sequence. -/
theorem retry_stack_depth_linear (r : HttpResp) (k : Nat)
    (rest : List HttpResp) (h : r.status = 429) :
    callApiDepth (List.replicate k r ++ rest) = k + callApiDepth rest := by
  induction k with
  | zero => simp
  | succ n ih =>
    rw [List.replicate_succ, List.cons_append, callApiDepth]
    simp only [h, if_true, ih]
    omega

/-- Claim C5 amended witness: three consecutive 429s before success
reach stack depth 3 + 1. -/
theorem retry_stack_depth_linear_witness :
    callApiDepth (List.replicate 3 resp429one ++ [respSteamOk]) =
      3 + callApiDepth [respSteamOk] :=
  retry_stack_depth_linear resp429one 3 [respSteamOk] (by decide)

/- ### The exploration loop -/

/-- The oracle input consumed by one loop iteration: the outcome of
`getRandomItems` (`none` models the "not enough items" error), whether
`combinationExists` returns a store error, and the response the combine
client would eventually deliver for the drawn pair (`none` models a
transport error, which `combineElements` turns into `logrus.Fatal`). -/
structure IterInput where
  draw : Option (String × String)
  existsErr : Bool
  api : Option ApiResponse

/-- The result of one iteration body: keep looping with an updated
state, or leave the loop with a final state and outcome. -/
inductive StepResult
  | proceed (st : EState)
  | stop (st : EState) (oc : Outcome)
deriving DecidableEq

/-- One iteration of the body of `exploreCombinations`: draw a pair
(abort on sampling error), check `combinationExists` (abort on store
error), skip the API entirely when the pair is already recorded, and
otherwise run `combineElements` and bump `createdCombinations`; every
non-aborting branch bumps `attempts` by exactly one. -/
def exploreStep (input : IterInput) (st : EState) : StepResult :=
  match input.draw with
  | none => StepResult.stop
      { st with log := LogLine.errSampling :: st.log } Outcome.aborted
  | some (first, second) =>
    if input.existsErr then
      StepResult.stop
        { st with log := LogLine.errExists :: st.log } Outcome.aborted
    else if combinationExists first second st.store then
      StepResult.proceed { st with attempts := st.attempts + 1 }
    else
      match input.api with
      | none => StepResult.stop
          { st with
            apiCalls := st.apiCalls + 1,
            log := LogLine.fatalApi :: st.log } Outcome.fatal
      | some resp =>
        let st1 := combineElements first second resp st
        StepResult.proceed
          { st1 with created := st1.created + 1, attempts := st1.attempts + 1 }

/-- The loop of `exploreCombinations`, with the Go guard
`createdCombinations < maxCombinations && attempts < maxAttempts`
checked at the top of every iteration.  The `fuel` argument only bounds
the recursion; it never alters behaviour as long as
`maxA - st.attempts ≤ fuel`, which the wrapper below guarantees, because
every iteration increments `attempts`.  On normal exit the engine logs
the final counts. -/
def exploreGo (inputs : Nat → IterInput) (maxC maxA : Nat) :
    Nat → EState → EState × Outcome
  | 0, st =>
    if st.created < maxC ∧ st.attempts < maxA then (st, Outcome.exhausted)
    else
      ({ st with log := LogLine.finished st.created st.attempts :: st.log },
        Outcome.exhausted)
  | fuel + 1, st =>
    if st.created < maxC ∧ st.attempts < maxA then
      match exploreStep (inputs st.attempts) st with
      | StepResult.stop st' oc => (st', oc)
      | StepResult.proceed st' => exploreGo inputs maxC maxA fuel st'
    else
      ({ st with log := LogLine.finished st.created st.attempts :: st.log },
        Outcome.exhausted)

/-- `exploreCombinations(db, maxCombinations, maxAttempts)` from
collectData.go, started on a hydrated state: since `attempts` starts at
`st.attempts` and grows by one per iteration, `maxA` fuel always
suffices. -/
def exploreCombinations (inputs : Nat → IterInput) (maxC maxA : Nat)
    (st : EState) : EState × Outcome :=
  exploreGo inputs maxC maxA maxA st

/-- Claim C3: when the drawn ordered pair already has a combination row,
the iteration makes no API call, writes nothing, leaves the success
counter alone, and increments `attempts` by exactly one. -/
theorem seen_pair_frame (input : IterInput) (st : EState) (first second : String)
    (hd : input.draw = some (first, second)) (he : input.existsErr = false)
    (hx : combinationExists first second st.store = true) :
    ∃ st', exploreStep input st = StepResult.proceed st' ∧
      st'.apiCalls = st.apiCalls ∧ st'.store = st.store ∧
      st'.cache = st.cache ∧ st'.created = st.created ∧
      st'.attempts = st.attempts + 1 ∧ st'.log = st.log := by
  refine ⟨{ st with attempts := st.attempts + 1 }, ?_, rfl, rfl, rfl, rfl,
    rfl, rfl⟩
  unfold exploreStep
  rw [hd]
  simp only [he, Bool.false_eq_true, if_false, hx, if_true]

/-- A store in which the one pair the oracle below ever draws is already
recorded. -/
def exploredStore : Store :=
  { items := initialItems ++ [("Steam", "💨", true)],
    combos := [{ firstItem := "Water", secondItem := "Fire",
                 resultItem := "Steam" }] }

/-- A start state over `exploredStore`. -/
def exploredState : EState :=
  { store := exploredStore,
    cache := [("Water", "💧"), ("Fire", "🔥"), ("Wind", "🌬️"),
              ("Earth", "🌍"), ("Steam", "💨")],
    created := 0, attempts := 0, apiCalls := 0, log := [] }

/-- An oracle that always draws the already-recorded pair
`(Water, Fire)` with no store error. -/
def allSeenInputs : Nat → IterInput :=
  fun _ => { draw := some ("Water", "Fire"), existsErr := false,
             api := some steamResp }

/-- Claim C3 witness: the frame property at the concrete state of
Scenario C — the pair `(Water, Fire)` is already recorded. -/
theorem seen_pair_frame_witness :
    ∃ st', exploreStep (allSeenInputs 0) exploredState
        = StepResult.proceed st' ∧
      st'.apiCalls = exploredState.apiCalls ∧
      st'.store = exploredState.store ∧
      st'.cache = exploredState.cache ∧
      st'.created = exploredState.created ∧
      st'.attempts = exploredState.attempts + 1 ∧
      st'.log = exploredState.log :=
  seen_pair_frame (allSeenInputs 0) exploredState "Water" "Fire" rfl rfl
    (by decide)

/- ### Claim C2: budgets bound the loop exactly -/

lemma exploreStep_seen (input : IterInput) (st : EState)
    (first second : String) (hd : input.draw = some (first, second))
    (he : input.existsErr = false)
    (hx : combinationExists first second st.store = true) :
    exploreStep input st
      = StepResult.proceed { st with attempts := st.attempts + 1 } := by
  unfold exploreStep
  rw [hd]
  simp only [he, Bool.false_eq_true, if_false, hx, if_true]

lemma exploreGo_allSeen (inputs : Nat → IterInput) (maxC maxA : Nat) :
    ∀ fuel st,
      (∀ k, (inputs k).existsErr = false ∧
        ∃ f s, (inputs k).draw = some (f, s) ∧
          combinationExists f s st.store = true) →
      st.created < maxC → st.attempts ≤ maxA → maxA ≤ st.attempts + fuel →
      exploreGo inputs maxC maxA fuel st =
        ({ st with
           attempts := maxA,
           log := LogLine.finished st.created maxA :: st.log },
          Outcome.exhausted) := by
  intro fuel
  induction fuel with
  | zero =>
    intro st hall hc hle hge
    have hEq : st.attempts = maxA := by omega
    rw [exploreGo]
    rw [if_neg (by omega)]
    rw [← hEq]
  | succ fuel ih =>
    intro st hall hc hle hge
    by_cases hlt : st.attempts < maxA
    · rw [exploreGo]
      rw [if_pos ⟨hc, hlt⟩]
      obtain ⟨hee, f, s, hdraw, hex⟩ := hall st.attempts
      rw [exploreStep_seen (inputs st.attempts) st f s hdraw hee hex]
      dsimp only
      rw [ih { st with attempts := st.attempts + 1 } hall hc
        (by dsimp only; omega) (by dsimp only; omega)]
    · have hEq : st.attempts = maxA := by omega
      rw [exploreGo]
      rw [if_neg (by omega)]
      rw [← hEq]

/-- Claim C2 amended: the loop stops as soon as `successes` has reached
`maxSuccesses` or `attempts` has reached `maxAttempts` (first conjunct),
and — provided `maxSuccesses ≥ 1` — a run on a store where every drawn
pair is already recorded performs exactly `maxAttempts` iterations with
zero successes (second conjunct).  The restriction `maxSuccesses ≥ 1` is
what the counterexample below forces: with `maxSuccesses = 0` the Go
guard `createdCombinations < maxCombinations` is false at once, so the
loop performs zero iterations, not `maxAttempts`. -/
theorem budgets_respected_amended (inputs : Nat → IterInput)
    (maxC maxA fuel : Nat) (st : EState) :
    (maxC ≤ st.created ∨ maxA ≤ st.attempts →
      exploreGo inputs maxC maxA fuel st =
        ({ st with log := LogLine.finished st.created st.attempts :: st.log },
          Outcome.exhausted)) ∧
    (1 ≤ maxC → st.created = 0 → st.attempts = 0 →
      (∀ k, (inputs k).existsErr = false ∧
        ∃ f s, (inputs k).draw = some (f, s) ∧
          combinationExists f s st.store = true) →
      exploreCombinations inputs maxC maxA st =
        ({ st with
           attempts := maxA,
           log := LogLine.finished 0 maxA :: st.log }, Outcome.exhausted)) := by
  constructor
  · intro hstop
    cases fuel with
    | zero =>
      rw [exploreGo]; rw [if_neg (by omega)]
    | succ fuel =>
      rw [exploreGo]; rw [if_neg (by omega)]
  · intro hC hcr hat hall
    unfold exploreCombinations
    rw [exploreGo_allSeen inputs maxC maxA maxA st hall (by omega) (by omega)
      (by omega)]
    rw [hcr]

/-- Claim C2 counterexample: with budgets `maxSuccesses = 0`,
`maxAttempts = 3` on a store where the (only ever drawn) pair
`(Water, Fire)` is already recorded, the loop performs zero iterations
and not the three the claim demands for every pair of budgets. -/
theorem budgets_counterexample :
    (exploreCombinations allSeenInputs 0 3 exploredState).1.attempts = 0 ∧
    ¬ ((exploreCombinations allSeenInputs 0 3 exploredState).1.attempts = 3) ∧
    (exploreCombinations allSeenInputs 0 3 exploredState).1.created = 0 := by
  decide

/-- Claim C2 witness: `maxSuccesses = 1`, `maxAttempts = 2` on the fully
explored store — exactly two attempts, zero successes, normal exit. -/
theorem budgets_respected_witness :
    exploreCombinations allSeenInputs 1 2 exploredState =
      ({ exploredState with
         attempts := 2,
         log := LogLine.finished 0 2 :: exploredState.log },
        Outcome.exhausted) :=
  (budgets_respected_amended allSeenInputs 1 2 2 exploredState).2
    (by omega) rfl rfl
    (fun _ => ⟨rfl, "Water", "Fire", rfl, by decide⟩)

/- ### Claim C8: abort paths -/

/-- Claim C8 amended: when pair sampling fails or the existence check
returns a store error while the loop is running, the run transitions to
`Aborted` (the process survives: the outcome is not `fatal`), logging the
error; the final success/attempt-count line is emitted only on the
`Exhausted` exit path, not on abort — which is what the counterexample
below shows against the claim as stated. -/
theorem abort_paths_clean_amended (inputs : Nat → IterInput)
    (maxC maxA fuel : Nat) (st : EState)
    (hc : st.created < maxC) (ha : st.attempts < maxA) :
    ((inputs st.attempts).draw = none →
      exploreGo inputs maxC maxA (fuel + 1) st =
        ({ st with log := LogLine.errSampling :: st.log }, Outcome.aborted)) ∧
    (∀ first second, (inputs st.attempts).draw = some (first, second) →
      (inputs st.attempts).existsErr = true →
      exploreGo inputs maxC maxA (fuel + 1) st =
        ({ st with log := LogLine.errExists :: st.log }, Outcome.aborted)) := by
  constructor
  · intro hdraw
    rw [exploreGo]
    rw [if_pos ⟨hc, ha⟩]
    unfold exploreStep
    rw [hdraw]
  · intro first second hdraw herr
    rw [exploreGo]
    rw [if_pos ⟨hc, ha⟩]
    unfold exploreStep
    rw [hdraw]
    simp only [herr, if_true]

/-- An oracle whose sampling always fails (population too small). -/
def noDrawInputs : Nat → IterInput :=
  fun _ => { draw := none, existsErr := false, api := none }

/-- Claim C8 counterexample: an aborted run ends with outcome `Aborted`
but its log contains no final-counts line — the `return` in the error
branch skips the `logrus.Info("Finished creating combinations...")`
statement entirely. -/
theorem abort_missing_counts_counterexample :
    (exploreCombinations noDrawInputs 1 1 exploredState).2 = Outcome.aborted ∧
    ((exploreCombinations noDrawInputs 1 1 exploredState).1.log.any
      isFinishedLog) = false := by
  decide

/-- Claim C8 witness: the amended theorem at a concrete running state
whose next draw fails. -/
theorem abort_paths_clean_witness :
    exploreGo noDrawInputs 1 1 (0 + 1) exploredState =
      ({ exploredState with log := LogLine.errSampling :: exploredState.log },
        Outcome.aborted) :=
  (abort_paths_clean_amended noDrawInputs 1 1 0 exploredState (by decide)
    (by decide)).1 rfl

/- ### The pair selector (`getRandomItems`) -/

/-- What `getRandomItems` can produce: the "not enough items to combine"
error, divergence (the rejection loop never draws a different index
within the supplied fuel), or two keys. -/
inductive SampleResult
  | notEnough
  | diverge
  | ok (first second : String)
deriving DecidableEq

/-- The rejection loop
`for secondIndex == firstIndex { secondIndex = rand.Intn(n) }`:
draw `r i % n`, `r (i+1) % n`, ... until one differs from `first`.
The fuel bounds the number of draws; running out models an (infinitely
unlucky) non-terminating loop. -/
def sampleLoop (n first : Nat) (r : Nat → Nat) : Nat → Nat → Option Nat
  | _, 0 => none
  | i, fuel + 1 =>
    if r i % n = first then sampleLoop n first r (i + 1) fuel
    else some (r i % n)

/-- `getRandomItems` from collectData.go, with the random source modelled
as a stream `r` of draws (`rand.Intn(n)` is `r i % n` for the `i`-th
call): materialise the cache keys, fail if fewer than two, then pick
`firstIndex` and rejection-sample a different `secondIndex`. -/
def getRandomItems (cache : List (String × String)) (r : Nat → Nat)
    (fuel : Nat) : SampleResult :=
  let items := cache.map Prod.fst
  if items.length < 2 then SampleResult.notEnough
  else
    let firstIndex := r 0 % items.length
    match sampleLoop items.length firstIndex r 1 fuel with
    | none => SampleResult.diverge
    | some secondIndex =>
      SampleResult.ok (items.getD firstIndex "") (items.getD secondIndex "")

lemma sampleLoop_finds (n first : Nat) (r : Nat → Nat) (hn : 0 < n) :
    ∀ fuel i, (∃ k, k < fuel ∧ r (i + k) % n ≠ first) →
      ∃ j, sampleLoop n first r i fuel = some j ∧ j ≠ first ∧ j < n := by
  intro fuel
  induction fuel with
  | zero =>
    intro i h
    obtain ⟨k, hk, _⟩ := h
    omega
  | succ fuel ih =>
    intro i h
    by_cases hi : r i % n = first
    · have hnext : ∃ k, k < fuel ∧ r ((i + 1) + k) % n ≠ first := by
        obtain ⟨k, hk, hne⟩ := h
        cases k with
        | zero => exact absurd hi (by simpa using hne)
        | succ k =>
          refine ⟨k, by omega, ?_⟩
          have : i + 1 + k = i + (k + 1) := by omega
          rw [this]
          exact hne
      obtain ⟨j, hj, hjne, hjlt⟩ := ih (i + 1) hnext
      refine ⟨j, ?_, hjne, hjlt⟩
      rw [sampleLoop]
      rw [if_pos hi]
      exact hj
    · refine ⟨r i % n, ?_, hi, Nat.mod_lt _ hn⟩
      rw [sampleLoop]
      rw [if_neg hi]

lemma getD_mem_of_lt {l : List String} {i : Nat} (h : i < l.length) :
    l.getD i "" ∈ l := by
  rw [List.getD_eq_getElem?_getD]
  rw [List.getElem?_eq_getElem h]
  exact List.getElem_mem h

/-- Claim C7: sampling two entries fails with the insufficient-population
error exactly when the cache holds fewer than two keys; with at least two
(distinct) keys it never reports that error, and whenever some draw
within the available fuel differs from the first index (true with
probability one for a fair source over `n ≥ 2` values) it terminates with
two distinct keys of the cache. -/
theorem sample_two_distinct (cache : List (String × String)) (r : Nat → Nat)
    (fuel : Nat) :
    (cache.length < 2 → getRandomItems cache r fuel = SampleResult.notEnough) ∧
    (2 ≤ cache.length →
      getRandomItems cache r fuel ≠ SampleResult.notEnough) ∧
    (2 ≤ cache.length → (cache.map Prod.fst).Nodup →
      (∃ k, k < fuel ∧ r (1 + k) % cache.length ≠ r 0 % cache.length) →
      ∃ first second, getRandomItems cache r fuel
          = SampleResult.ok first second ∧ first ≠ second ∧
        first ∈ cache.map Prod.fst ∧ second ∈ cache.map Prod.fst) := by
  have hlen : (cache.map Prod.fst).length = cache.length :=
    List.length_map cache Prod.fst
  refine ⟨?_, ?_, ?_⟩
  · intro h
    unfold getRandomItems
    rw [if_pos (by omega)]
  · intro h
    unfold getRandomItems
    rw [if_neg (by omega)]
    dsimp only
    cases sampleLoop (cache.map Prod.fst).length
        (r 0 % (cache.map Prod.fst).length) r 1 fuel with
    | none => simp
    | some secondIndex => simp
  · intro h hnd hdiff
    have hn : 0 < (cache.map Prod.fst).length := by omega
    have hdiff' : ∃ k, k < fuel ∧
        r (1 + k) % (cache.map Prod.fst).length
          ≠ r 0 % (cache.map Prod.fst).length := by
      rw [hlen]; exact hdiff
    obtain ⟨j, hj, hjne, hjlt⟩ := sampleLoop_finds
      (cache.map Prod.fst).length (r 0 % (cache.map Prod.fst).length) r hn
      fuel 1 hdiff'
    have hfi : r 0 % (cache.map Prod.fst).length
        < (cache.map Prod.fst).length := Nat.mod_lt _ hn
    refine ⟨(cache.map Prod.fst).getD (r 0 % (cache.map Prod.fst).length) "",
      (cache.map Prod.fst).getD j "", ?_, ?_, ?_, ?_⟩
    · unfold getRandomItems
      rw [if_neg (by omega)]
      dsimp only
      rw [hj]
    · intro heq
      apply hjne
      have h1 : (cache.map Prod.fst).getD (r 0 % (cache.map Prod.fst).length) ""
          = (cache.map Prod.fst).get ⟨r 0 % (cache.map Prod.fst).length, hfi⟩ := by
        rw [List.getD_eq_getElem?_getD, List.getElem?_eq_getElem hfi]
        rfl
      have h2 : (cache.map Prod.fst).getD j ""
          = (cache.map Prod.fst).get ⟨j, hjlt⟩ := by
        rw [List.getD_eq_getElem?_getD, List.getElem?_eq_getElem hjlt]
        rfl
      rw [h1, h2] at heq
      have := (List.Nodup.get_inj_iff hnd).1 heq.symm
      have := Fin.val_eq_val _ _ |>.2 this
      simpa using this
    · exact getD_mem_of_lt hfi
    · exact getD_mem_of_lt hjlt

/-- Claim C7 witness: a two-key cache and the identity stream — the
sampler returns the two distinct keys. -/
theorem sample_two_distinct_witness :
    ∃ first second,
      getRandomItems [("Water", "💧"), ("Fire", "🔥")] (fun k => k) 1
          = SampleResult.ok first second ∧ first ≠ second ∧
        first ∈ [("Water", "💧"), ("Fire", "🔥")].map Prod.fst ∧
        second ∈ [("Water", "💧"), ("Fire", "🔥")].map Prod.fst :=
  (sample_two_distinct [("Water", "💧"), ("Fire", "🔥")] (fun k => k) 1).2.2
    (by decide) (by decide) ⟨0, by omega, by decide⟩

/- ### The export utility (json.go) -/

/-- A JSON value, as produced by Go's `encoding/json`. -/
inductive Json
  | null
  | jbool (b : Bool)
  | jstr (s : String)
  | jarr (elems : List Json)
  | jobj (fields : List (String × Json))

/-- `true` exactly on a JSON array. -/
def isJsonArr : Json → Bool
  | Json.jarr _ => true
  | _ => false

/-- The `Item` struct of json.go with its JSON tags:
`text` = name, `emoji` = glyph, `discovered` = isNew. -/
structure JItem where
  text : String
  emoji : String
  discovered : Bool
deriving DecidableEq

/-- `json.Marshal` of one `Item`. -/
def marshalJItem (it : JItem) : Json :=
  Json.jobj [("text", Json.jstr it.text), ("emoji", Json.jstr it.emoji),
             ("discovered", Json.jbool it.discovered)]

/-- `json.Marshal` of the `ItemsList` struct: always a JSON object with
the single key `elements`; Go marshals a nil slice (no rows scanned) as
`null` and a non-empty slice as an array. -/
def marshalItemsList (elems : List JItem) : Json :=
  Json.jobj [("elements",
    if elems.isEmpty then Json.null else Json.jarr (elems.map marshalJItem))]

/-- `main` of json.go: scan `SELECT name, emoji, isNew FROM items` into
`Item{Text, Emoji, Discovered}` values and marshal the wrapping
`ItemsList`.  (The write of the resulting bytes to `localStorage.json`
is file I/O outside the serialization shape being checked.) -/
def jsonExport (st : Store) : Json :=
  marshalItemsList (st.items.map
    (fun row => { text := row.1, emoji := row.2.1, discovered := row.2.2 }))

/-- Claim C9 counterexample: on a store with one item row the export is
not a JSON array — `ItemsList`'s `elements` tag wraps the array in an
object, so the serialized snapshot is
`{"elements":[{"text":...},...]}`, not `[...]` as the claim states. -/
theorem export_not_array_counterexample :
    isJsonArr (jsonExport
      { items := [("Water", "💧", false)], combos := [] }) = false := by
  decide

/-- Claim C9 amended: the export serializes the full Entry table as a
single JSON object with one key `elements` holding the array of
`{text, emoji, discovered}` objects (`text` = name, `emoji` = glyph,
`discovered` = isNew), in table order — `null` standing for the array
when the table is empty, since Go marshals the never-appended nil slice
as `null`. -/
theorem export_shape (st : Store) :
    jsonExport st = Json.jobj [("elements",
      if st.items.isEmpty then Json.null
      else Json.jarr (st.items.map (fun row =>
        Json.jobj [("text", Json.jstr row.1), ("emoji", Json.jstr row.2.1),
                   ("discovered", Json.jbool row.2.2)])))] := by
  unfold jsonExport marshalItemsList
  cases st.items with
  | nil => rfl
  | cons row rows =>
    simp only [List.map_cons, List.isEmpty_cons, List.map_map]
    rfl

/- ### Startup bootstrap (C10) -/

/-- The outcome of `os.Stat(dbName)`: success, the not-exist error, or
any other error (e.g., a permission error). -/
inductive StatResult
  | statOk
  | errNotExist
  | errOther
deriving DecidableEq

/-- `checkDatabaseExists` from collectData.go: on a stat error it
returns `!os.IsNotExist(err)` — so any error other than not-exist is
reported as "the database exists"; only the not-exist error yields
`false`. -/
def checkDatabaseExists : StatResult → Bool
  | StatResult.statOk => true
  | StatResult.errNotExist => false
  | StatResult.errOther => true

/-- `initializeDatabase` from collectData.go, as its effect on the
store's contents: `createTables` plus the four seed inserts run only
when `checkDatabaseExists` reported `false`; otherwise whatever content
the backing file has (possibly no tables at all) is left untouched. -/
def initializeDatabase (stat : StatResult) (current : Store) : Store :=
  if checkDatabaseExists stat then current else seedStore

/-- Claim C10: bootstrap runs exactly when the stat error is not-exist —
any other stat error makes the fresh-store check report "exists", so
table creation and seeding are skipped even on a store with no tables,
while the not-exist error triggers the full bootstrap. -/
theorem bootstrap_only_on_not_exist (current : Store) :
    (∀ stat, checkDatabaseExists stat = false ↔ stat = StatResult.errNotExist) ∧
    initializeDatabase StatResult.errOther current = current ∧
    initializeDatabase StatResult.errNotExist current = seedStore := by
  refine ⟨?_, rfl, rfl⟩
  intro stat
  cases stat <;> simp [checkDatabaseExists]

/-- Claim C10 witness: on a backing file with no tables at all, a
non-not-exist stat error still skips bootstrap, while not-exist seeds
the store. -/
theorem bootstrap_only_on_not_exist_witness :
    (checkDatabaseExists StatResult.errOther = false ↔
      StatResult.errOther = StatResult.errNotExist) ∧
    initializeDatabase StatResult.errOther emptyStore = emptyStore ∧
    initializeDatabase StatResult.errNotExist emptyStore = seedStore :=
  ⟨(bootstrap_only_on_not_exist emptyStore).1 StatResult.errOther,
    (bootstrap_only_on_not_exist emptyStore).2.1,
    (bootstrap_only_on_not_exist emptyStore).2.2⟩
